import Mathlib

/-!
Shallow embedding of `src/quackmetadata/config.py` (and its near-duplicate
`src/quacktool/config.py`): configuration reconciliation and the logging
handler lifecycle.  Python dictionaries and attribute namespaces are modelled
as association lists with unique-key update semantics; the mutable module
globals (`_config`, `_file_handlers`, the root logger) are modelled as
explicit state records threaded through each operation; exceptions are
modelled with `Except`, returning the state reached at the raise point
(Python exceptions do not roll back global mutations).
-/

namespace QuackMeta

/-- A scalar value stored in a configuration mapping (Python str / int). -/
inductive PyVal where
  | vStr (s : String)
  | vInt (n : Int)
deriving DecidableEq

/-- A Python `dict[str, ...]` (or an attribute namespace), modelled as an
association list with insertion order and unique keys maintained by `aset`. -/
abbrev Dict := List (String × PyVal)

/-- Key lookup: `d.get(k)` / `getattr(o, k)` — first matching entry. -/
def alookup {α : Type} (l : List (String × α)) (k : String) : Option α :=
  (l.find? (fun kv => kv.1 = k)).map (fun kv => kv.2)

/-- Containment: `k in d` / `hasattr(o, k)`. -/
def ahas {α : Type} (l : List (String × α)) (k : String) : Bool :=
  l.any (fun kv => kv.1 = k)

/-- Store: `d[k] = v` / `setattr(o, k, v)` — replace in place if the key is
present, append otherwise (Python dict assignment semantics). -/
def aset {α : Type} : List (String × α) → String → α → List (String × α)
  | [], k, v => [(k, v)]
  | kv :: rest, k, v => if kv.1 = k then (k, v) :: rest else kv :: aset rest k v

/-- `d.update(p)`: apply each entry of `p` in order to `d`. -/
def dictUpdate (d p : Dict) : Dict :=
  p.foldl (fun acc kv => aset acc kv.1 kv.2) d

/-- The tool's section inside the `custom` region: either a plain dict
(`isinstance(x, dict)` true) or some other object carrying attributes. -/
inductive ToolSection where
  | dict (d : Dict)
  | nonDict (attrs : Dict)
deriving DecidableEq

/-- The host config's `custom` extension region: mapping-like (has a `get`
method, so key access is used) or attribute-based (`hasattr`/`getattr`/
`setattr` are used). -/
inductive CustomRegion where
  | mapping (entries : List (String × ToolSection))
  | attrObj (entries : List (String × ToolSection))
deriving DecidableEq

/-- The host config's `paths` region: `logs_dir` is `some` when
`hasattr(quack_config.paths, "logs_dir")` holds. -/
structure PathsRegion where
  logs_dir : Option String
deriving DecidableEq

/-- The host `QuackConfig` object returned by `load_config` (the fields this
module touches). -/
structure QuackConfig where
  custom : CustomRegion
  paths : PathsRegion
deriving DecidableEq

/-- `QuackMetadataConfig().model_dump()`: the pydantic defaults serialized to
a plain mapping (field defaults from the `QuackMetadataConfig` model). -/
def QuackMetadataConfig_model_dump : Dict :=
  [("default_prompt_template", .vStr "generic"),
   ("max_retries", .vInt 3),
   ("output_format", .vStr "json"),
   ("temp_dir", .vStr "./temp"),
   ("output_dir", .vStr "./output"),
   ("log_level", .vStr "INFO")]

/-! ## The logging module model -/

/-- An attribute of the Python `logging` module, as seen by
`getattr(logging, name, logging.INFO)`: either an integer level constant or a
non-integer object (module-level function, class, format string, ...). -/
inductive LogAttr where
  | levelInt (n : Nat)
  | nonInt (desc : String)
deriving DecidableEq

/-- Finite model of the `logging` module namespace: the level constants plus
the module-level convenience functions and classes that share the namespace.
Names absent from the namespace return `none` (so the `getattr` default
applies). -/
def loggingModuleAttr : String → Option LogAttr
  | "CRITICAL" => some (.levelInt 50)
  | "FATAL" => some (.levelInt 50)
  | "ERROR" => some (.levelInt 40)
  | "WARNING" => some (.levelInt 30)
  | "WARN" => some (.levelInt 30)
  | "INFO" => some (.levelInt 20)
  | "DEBUG" => some (.levelInt 10)
  | "NOTSET" => some (.levelInt 0)
  | "debug" => some (.nonInt "function logging.debug")
  | "info" => some (.nonInt "function logging.info")
  | "warning" => some (.nonInt "function logging.warning")
  | "error" => some (.nonInt "function logging.error")
  | "critical" => some (.nonInt "function logging.critical")
  | "exception" => some (.nonInt "function logging.exception")
  | "log" => some (.nonInt "function logging.log")
  | "getLogger" => some (.nonInt "function logging.getLogger")
  | "basicConfig" => some (.nonInt "function logging.basicConfig")
  | "shutdown" => some (.nonInt "function logging.shutdown")
  | "Logger" => some (.nonInt "class logging.Logger")
  | "Handler" => some (.nonInt "class logging.Handler")
  | "StreamHandler" => some (.nonInt "class logging.StreamHandler")
  | "FileHandler" => some (.nonInt "class logging.FileHandler")
  | "Formatter" => some (.nonInt "class logging.Formatter")
  | "LogRecord" => some (.nonInt "class logging.LogRecord")
  | "BASIC_FORMAT" => some (.nonInt "str logging.BASIC_FORMAT")
  | _ => none

/-- Decidable equality on `Except` results, for evaluating the model on
concrete inputs. -/
instance exceptDecEq {ε α : Type} [DecidableEq ε] [DecidableEq α] :
    DecidableEq (Except ε α) := fun x y =>
  match x, y with
  | .ok a, .ok b =>
      if h : a = b then .isTrue (by rw [h]) else .isFalse (by simp [h])
  | .error a, .error b =>
      if h : a = b then .isTrue (by rw [h]) else .isFalse (by simp [h])
  | .ok _, .error _ => .isFalse (by simp)
  | .error _, .ok _ => .isFalse (by simp)

/-- Exceptions this module can raise or propagate. -/
inductive PyError where
  | loaderError (msg : String)
  | oserror (op : String)
  | typeError (msg : String)
deriving DecidableEq

/-- `getattr(logging, log_level_name, logging.INFO)`.  `getattr` itself
raises `TypeError` when the attribute name is not a string; otherwise an
unknown name falls back to the default `logging.INFO` (20). -/
def resolveLevelName : PyVal → Except PyError LogAttr
  | .vStr s => .ok ((loggingModuleAttr s).getD (.levelInt 20))
  | .vInt _ => .error (.typeError "attribute name must be string")

/-- `logging._checkLevel`, as invoked by `Logger.setLevel` / `basicConfig`:
an integer is accepted as-is; any non-integer level raises. -/
def checkLevel : LogAttr → Except PyError Nat
  | .levelInt n => .ok n
  | .nonInt _ => .error (.typeError "Level not an integer or a valid string")

/-! ## Handlers and the root logger -/

inductive HandlerKind where
  | console
  | file
deriving DecidableEq

/-- `isinstance(h, logging.FileHandler)`. -/
def HandlerKind.isFile : HandlerKind → Bool
  | .file => true
  | .console => false

/-- A handler attached to the root logger; `hid` is a fresh identifier
standing for the handler's object identity. -/
structure Handler where
  hid : Nat
  kind : HandlerKind
deriving DecidableEq

/-- The process-wide mutable logging state: the root logger's level and
handler list, the module-level `_file_handlers` registry (handler ids), the
log of `close()` calls issued so far (ids, with multiplicity), and a fresh-id
supply modelling object allocation. -/
structure LoggingState where
  rootLevel : Nat
  rootHandlers : List Handler
  registry : List Nat
  closes : List Nat
  nextId : Nat
deriving DecidableEq

def emptyLoggingState : LoggingState :=
  { rootLevel := 30, rootHandlers := [], registry := [], closes := [], nextId := 0 }

/-- Lines 134-142: attach a console handler unless some non-file stream
handler is already present. -/
def addConsoleIfMissing (st : LoggingState) : LoggingState :=
  if st.rootHandlers.any (fun h => !h.kind.isFile) then st
  else { st with rootHandlers := st.rootHandlers ++ [⟨st.nextId, .console⟩],
                 nextId := st.nextId + 1 }

/-- Lines 144-148: remove every file handler from the root logger and close
it (the closed handlers stay in the `_file_handlers` registry). -/
def removeAndCloseFileHandlers (st : LoggingState) : LoggingState :=
  { st with
    rootHandlers := st.rootHandlers.filter (fun h => !h.kind.isFile),
    closes := st.closes ++ (st.rootHandlers.filter (fun h => h.kind.isFile)).map Handler.hid }

/-- Lines 164-170 (success case): open a fresh append-mode `FileHandler`,
attach it to the root logger and append it to `_file_handlers`. -/
def attachFileHandler (st : LoggingState) : LoggingState :=
  { st with rootHandlers := st.rootHandlers ++ [⟨st.nextId, .file⟩],
            registry := st.registry ++ [st.nextId],
            nextId := st.nextId + 1 }

/-- `logging.basicConfig(level, force=True)` up to (not including) its final
`root.setLevel`: close and remove every root handler, then attach a fresh
default stream handler. -/
def forceBasicConfig (st : LoggingState) : LoggingState :=
  { st with rootHandlers := [⟨st.nextId, .console⟩],
            closes := st.closes ++ st.rootHandlers.map Handler.hid,
            nextId := st.nextId + 1 }

/-- `_close_file_handlers` (the `atexit` hook): call `close()` on every
handler still listed in `_file_handlers` — already-closed ones included —
then clear the list. -/
def close_file_handlers (st : LoggingState) : LoggingState :=
  { st with closes := st.closes ++ st.registry, registry := [] }

/-! ## initialize_config and the lifecycle operations -/

/-- The host environment seen by one `initialize_config` call: what
`load_config` returns or raises, whether `Path(logs_dir).mkdir(...)`
succeeds, whether opening the `FileHandler` succeeds, and whether
`"PYTEST_CURRENT_TEST"` is set in `os.environ`. -/
structure Env where
  loadResult : Except PyError QuackConfig
  mkdirOk : Bool
  fileOpenOk : Bool
  testMode : Bool

/-- Lines 95-106: ensure `custom` holds a `quackmetadata` section, creating
it from the serialized model defaults when absent; key access when `custom`
has a `get` method, attribute access otherwise. -/
def ensureToolSection (qc : QuackConfig) : QuackConfig :=
  match qc.custom with
  | .mapping es =>
      if ahas es "quackmetadata" then qc
      else { qc with custom :=
              .mapping (aset es "quackmetadata" (.dict QuackMetadataConfig_model_dump)) }
  | .attrObj es =>
      if ahas es "quackmetadata" then qc
      else { qc with custom :=
              .attrObj (aset es "quackmetadata" (.dict QuackMetadataConfig_model_dump)) }

/-- `custom.get("quackmetadata", {})` / `getattr(custom, "quackmetadata", {})`:
the tool's current section, defaulting to an empty dict. -/
def toolSection (qc : QuackConfig) : ToolSection :=
  match qc.custom with
  | .mapping es => (alookup es "quackmetadata").getD (.dict [])
  | .attrObj es => (alookup es "quackmetadata").getD (.dict [])

/-- Lines 108-113: read `log_level` from the section (dict `.get` with
default `"INFO"` when it is a dict, `getattr` with default `"INFO"`
otherwise). -/
def sectionLogLevel : ToolSection → PyVal
  | .dict d => (alookup d "log_level").getD (.vStr "INFO")
  | .nonDict attrs => (alookup attrs "log_level").getD (.vStr "INFO")

/-- `initialize_config` (lines 78-176).  Returns the call's result together
with the logging state reached when it returns or raises.  Raise points, in
source order: `load_config` (line 93, unprotected); `getattr` on a non-string
level name (line 114); `setLevel`/`basicConfig` with a non-integer level
(lines 119/132); `mkdir` of the logs directory (lines 125/162, both outside
any `try`).  Only the `FileHandler` open (line 167) is wrapped in
`try/except` and degrades silently. -/
def initialize_config (env : Env) (lst : LoggingState) :
    Except PyError QuackConfig × LoggingState :=
  match env.loadResult with
  | .error e => (.error e, lst)
  | .ok qc0 =>
    let qc := ensureToolSection qc0
    match resolveLevelName (sectionLogLevel (toolSection qc)) with
    | .error e => (.error e, lst)
    | .ok attr =>
      if env.testMode then
        -- basicConfig mutates the handlers before its final setLevel raises
        let st1 := forceBasicConfig lst
        match checkLevel attr with
        | .error e => (.error e, st1)
        | .ok n =>
          let st2 := { st1 with rootLevel := n }
          if env.mkdirOk then (.ok qc, st2) else (.error (.oserror "mkdir"), st2)
      else
        match checkLevel attr with
        | .error e => (.error e, lst)
        | .ok n =>
          let st1 := { lst with rootLevel := n }
          let st2 := addConsoleIfMissing st1
          let st3 := removeAndCloseFileHandlers st2
          if env.mkdirOk then
            (.ok qc, if env.fileOpenOk then attachFileHandler st3 else st3)
          else (.error (.oserror "mkdir"), st3)

/-- The process-wide state of the module: the `_config` singleton plus the
logging state. -/
structure GlobalState where
  config : Option QuackConfig
  logging : LoggingState
deriving DecidableEq

/-- `get_config` (lines 184-196): return the cached singleton, running
`initialize_config` first when it is still `None`.  If initialization
raises, the singleton stays unset and the exception propagates. -/
def get_config (env : Env) (st : GlobalState) :
    Except PyError QuackConfig × GlobalState :=
  match st.config with
  | some c => (.ok c, st)
  | none =>
    match initialize_config env st.logging with
    | (.ok qc, lst) => (.ok qc, { config := some qc, logging := lst })
    | (.error e, lst) => (.error e, { config := none, logging := lst })

/-- `get_tool_config` (lines 199-213): the tool's section of the (lazily
initialized) singleton, defaulting to an empty dict. -/
def get_tool_config (env : Env) (st : GlobalState) :
    Except PyError ToolSection × GlobalState :=
  match get_config env st with
  | (.ok c, st1) => (.ok (toolSection c), st1)
  | (.error e, st1) => (.error e, st1)

/-- Lines 233-239: write the new section under the tool's name — key access
when `custom` has a `get` method, attribute access otherwise. -/
def customStore (c : CustomRegion) (sec : ToolSection) : CustomRegion :=
  match c with
  | .mapping es => .mapping (aset es "quackmetadata" sec)
  | .attrObj es => .attrObj (aset es "quackmetadata" sec)

/-- `update_tool_config` (lines 216-239): merge `new_config` over the current
section when that section is a dict (`isinstance(tool_config, dict)`),
replace it wholesale otherwise, and write the result back into `custom`.
The write mutates the cached singleton. -/
def update_tool_config (env : Env) (new_config : Dict) (st : GlobalState) :
    Except PyError Unit × GlobalState :=
  match get_config env st with
  | (.error e, st1) => (.error e, st1)
  | (.ok config, st1) =>
    match get_tool_config env st1 with
    | (.error e, st2) => (.error e, st2)
    | (.ok tool_config, st2) =>
      let updated_config : Dict :=
        match tool_config with
        | .dict d => dictUpdate d new_config
        | .nonDict _ => new_config
      (.ok (), { st2 with
        config := some { config with custom := customStore config.custom (.dict updated_config) } })

/-- N successive direct `initialize_config` calls threading the process-wide
logging state (the returned config objects are dropped, as in a caller that
only re-initializes). -/
def runInits (envs : List Env) (lst : LoggingState) : LoggingState :=
  envs.foldl (fun s e => (initialize_config e s).2) lst

/-! ## Derived observations and the handler invariant -/

/-- Whether the tool's entry is present in the `custom` region (either
shape). -/
def customHas (c : CustomRegion) : Bool :=
  match c with
  | .mapping es => ahas es "quackmetadata"
  | .attrObj es => ahas es "quackmetadata"

/-- Number of console (non-file stream) handlers on the root logger. -/
def consoleCount (st : LoggingState) : Nat :=
  (st.rootHandlers.filter (fun h => !h.kind.isFile)).length

/-- Number of file handlers on the root logger. -/
def fileCount (st : LoggingState) : Nat :=
  (st.rootHandlers.filter (fun h => h.kind.isFile)).length

/-- Registry entries whose handler has never been closed. -/
def openRegistry (st : LoggingState) : List Nat :=
  st.registry.filter (fun i => st.closes.count i == 0)

/-- Invariant maintained by the logging lifecycle: at most one console and
one file handler on the root logger, all allocated ids below the fresh-id
supply, no duplicate registry entries, and every never-closed registry entry
is an id of a file handler still attached to the root logger. -/
structure Inv (st : LoggingState) : Prop where
  console_le : consoleCount st ≤ 1
  file_le : fileCount st ≤ 1
  handlers_lt : ∀ h ∈ st.rootHandlers, h.hid < st.nextId
  registry_lt : ∀ i ∈ st.registry, i < st.nextId
  closes_lt : ∀ i ∈ st.closes, i < st.nextId
  registry_nodup : st.registry.Nodup
  open_in_root : ∀ i ∈ st.registry, st.closes.count i = 0 →
    ∃ h ∈ st.rootHandlers, h.hid = i ∧ h.kind = HandlerKind.file

/-! ## Concrete inputs used by witnesses and counterexamples -/

/-- A fresh host configuration: mapping-shaped `custom` with no tool entry,
no `logs_dir` attribute. -/
def freshCfg : QuackConfig := { custom := .mapping [], paths := { logs_dir := none } }

/-- A benign environment: loader succeeds with `freshCfg`, the filesystem
cooperates, not under pytest. -/
def env0 : Env :=
  { loadResult := .ok freshCfg, mkdirOk := true, fileOpenOk := true, testMode := false }

/-- The pristine process state: singleton unset, no handlers. -/
def st0 : GlobalState := { config := none, logging := emptyLoggingState }

/-- An environment in which creating the logs directory fails (e.g. the
parent directory is read-only). -/
def envNoMkdir : Env := { env0 with mkdirOk := false }

/-- An environment in which opening the log file fails but the directory
can be created. -/
def envNoFile : Env := { env0 with fileOpenOk := false }

/-- A host configuration whose tool section sets `log_level` to the
lowercase string `"info"`. -/
def cfgInfoLower : QuackConfig :=
  { custom := .mapping [("quackmetadata", .dict [("log_level", .vStr "info")])],
    paths := { logs_dir := none } }

/-- Environment whose loader returns `cfgInfoLower`. -/
def envInfoLower : Env := { env0 with loadResult := .ok cfgInfoLower }

/-- The configuration object produced by initializing from `freshCfg`. -/
def cfgA : QuackConfig :=
  { custom := .mapping [("quackmetadata", .dict QuackMetadataConfig_model_dump)],
    paths := { logs_dir := none } }

/-- The process state after one successful `get_config` from `st0` under
`env0`. -/
def stA : GlobalState :=
  { config := some cfgA,
    logging := { rootLevel := 20, rootHandlers := [⟨0, .console⟩, ⟨1, .file⟩],
                 registry := [1], closes := [], nextId := 2 } }

/-- A host configuration whose mapping-shaped `custom` carries the section
`{a: 1, b: 2}` for the tool. -/
def cfgAB : QuackConfig :=
  { custom := .mapping [("quackmetadata", .dict [("a", .vInt 1), ("b", .vInt 2)])],
    paths := { logs_dir := none } }

/-- Process state holding `cfgAB` as the cached singleton. -/
def stAB : GlobalState := { config := some cfgAB, logging := emptyLoggingState }

/-- A host configuration whose attribute-shaped `custom` carries a
non-mapping tool section (an attribute-bearing object with no attributes). -/
def cfgNonDict : QuackConfig :=
  { custom := .attrObj [("quackmetadata", .nonDict [])],
    paths := { logs_dir := none } }

/-- Process state holding `cfgNonDict` as the cached singleton. -/
def stNonDict : GlobalState := { config := some cfgNonDict, logging := emptyLoggingState }

/-- A fresh host configuration whose `custom` region is attribute-shaped and
lacks the tool's attribute. -/
def freshCfgAttr : QuackConfig := { custom := .attrObj [], paths := { logs_dir := none } }

/-- Environment whose loader returns `freshCfgAttr`. -/
def envAttr : Env := { env0 with loadResult := .ok freshCfgAttr }

/-! ## Association-list lemmas -/

theorem alookup_nil {α : Type} (k : String) : alookup ([] : List (String × α)) k = none := rfl

theorem alookup_cons {α : Type} (kv : String × α) (l : List (String × α)) (k : String) :
    alookup (kv :: l) k = if kv.1 = k then some kv.2 else alookup l k := by
  by_cases h : kv.1 = k <;> simp [alookup, List.find?_cons, h]

theorem alookup_aset {α : Type} (l : List (String × α)) (k k' : String) (v : α) :
    alookup (aset l k v) k' = if k' = k then some v else alookup l k' := by
  induction l with
  | nil =>
      by_cases h : k' = k
      · simp [aset, alookup_cons, alookup_nil, h]
      · have h' : ¬ k = k' := fun he => h he.symm
        simp [aset, alookup_cons, alookup_nil, h, h']
  | cons kv rest ih =>
      by_cases hk : kv.1 = k
      · subst hk
        by_cases h : k' = kv.1
        · simp [aset, alookup_cons, h]
        · have h' : ¬ kv.1 = k' := fun he => h he.symm
          simp [aset, alookup_cons, h, h']
      · by_cases h : kv.1 = k'
        · have hne : ¬ k' = k := fun he => hk (by rw [h, he])
          simp [aset, hk, alookup_cons, h, hne]
        · simp [aset, hk, alookup_cons, h, ih]

theorem alookup_eq_none_of_not_mem {α : Type} (l : List (String × α)) (k : String)
    (h : k ∉ l.map Prod.fst) : alookup l k = none := by
  induction l with
  | nil => rfl
  | cons kv rest ih =>
      simp only [List.map_cons, List.mem_cons] at h
      push_neg at h
      have : ¬ kv.1 = k := fun he => h.1 he.symm
      rw [alookup_cons, if_neg this]
      exact ih h.2

theorem alookup_dictUpdate (d p : Dict) (hp : (p.map Prod.fst).Nodup) (k : String) :
    alookup (dictUpdate d p) k =
      (match alookup p k with | some v => some v | none => alookup d k) := by
  induction p generalizing d with
  | nil => simp [dictUpdate, alookup_nil]
  | cons kv rest ih =>
      simp only [List.map_cons, List.nodup_cons] at hp
      have step : dictUpdate d (kv :: rest) = dictUpdate (aset d kv.1 kv.2) rest := rfl
      rw [step, ih _ hp.2, alookup_cons, alookup_aset]
      by_cases h : k = kv.1
      · subst h
        rw [alookup_eq_none_of_not_mem rest kv.1 hp.1]
        simp
      · have h' : ¬ kv.1 = k := fun he => h he.symm
        simp [h, h']

/-! ## Handler lifecycle lemmas -/

theorem inv_empty : Inv emptyLoggingState := by
  constructor <;> simp [emptyLoggingState, consoleCount, fileCount]

theorem inv_setLevel (st : LoggingState) (n : Nat) (h : Inv st) :
    Inv { st with rootLevel := n } := by
  obtain ⟨c1, c2, c3, c4, c5, c6, c7⟩ := h
  exact ⟨c1, c2, c3, c4, c5, c6, c7⟩

theorem addConsole_registry (st : LoggingState) :
    (addConsoleIfMissing st).registry = st.registry := by
  unfold addConsoleIfMissing
  split <;> rfl

theorem addConsole_closes (st : LoggingState) :
    (addConsoleIfMissing st).closes = st.closes := by
  unfold addConsoleIfMissing
  split <;> rfl

theorem addConsole_files (st : LoggingState) :
    (addConsoleIfMissing st).rootHandlers.filter (fun h => h.kind.isFile)
      = st.rootHandlers.filter (fun h => h.kind.isFile) := by
  unfold addConsoleIfMissing
  split
  · rfl
  · simp [List.filter_append, HandlerKind.isFile]

theorem inv_addConsole (st : LoggingState) (h : Inv st) : Inv (addConsoleIfMissing st) := by
  obtain ⟨c1, c2, c3, c4, c5, c6, c7⟩ := h
  unfold addConsoleIfMissing
  split
  · exact ⟨c1, c2, c3, c4, c5, c6, c7⟩
  · rename_i hno
    rw [Bool.not_eq_true, List.any_eq_false] at hno
    constructor
    · have hnil : st.rootHandlers.filter (fun h => !h.kind.isFile) = [] :=
        List.filter_eq_nil_iff.mpr hno
      show (List.filter (fun h => !h.kind.isFile)
        (st.rootHandlers ++ [⟨st.nextId, .console⟩])).length ≤ 1
      rw [List.filter_append, hnil]
      rfl
    · show (List.filter (fun h => h.kind.isFile)
        (st.rootHandlers ++ [⟨st.nextId, .console⟩])).length ≤ 1
      rw [List.filter_append]
      have hz : List.filter (fun h => h.kind.isFile)
        [(⟨st.nextId, HandlerKind.console⟩ : Handler)] = [] := rfl
      rw [hz, List.append_nil]
      exact c2
    · intro h hm
      rcases List.mem_append.mp hm with hm | hm
      · exact Nat.lt_succ_of_lt (c3 h hm)
      · simp at hm
        rw [hm]
        exact Nat.lt_succ_self _
    · exact fun i hm => Nat.lt_succ_of_lt (c4 i hm)
    · exact fun i hm => Nat.lt_succ_of_lt (c5 i hm)
    · exact c6
    · intro i hm hc
      obtain ⟨hh, hhm, hhid, hhk⟩ := c7 i hm hc
      exact ⟨hh, List.mem_append_left _ hhm, hhid, hhk⟩

theorem removeClose_registry (st : LoggingState) :
    (removeAndCloseFileHandlers st).registry = st.registry := rfl

theorem removeClose_files_nil (st : LoggingState) :
    (removeAndCloseFileHandlers st).rootHandlers.filter (fun h => h.kind.isFile) = [] := by
  rw [List.filter_eq_nil_iff]
  intro a ha
  have : a ∈ st.rootHandlers.filter (fun h => !h.kind.isFile) := ha
  rw [List.mem_filter] at this
  simp only [Bool.not_eq_true'] at this
  simp [this.2]

theorem removeClose_allClosed (st : LoggingState) (h : Inv st) :
    ∀ i ∈ (removeAndCloseFileHandlers st).registry,
      (removeAndCloseFileHandlers st).closes.count i ≠ 0 := by
  intro i hm hc
  rw [removeClose_registry] at hm
  have hcount : st.closes.count i +
      ((st.rootHandlers.filter (fun h => h.kind.isFile)).map Handler.hid).count i = 0 := by
    rw [← List.count_append]
    exact hc
  have h1 : st.closes.count i = 0 := Nat.eq_zero_of_add_eq_zero_right hcount
  have h2 : ((st.rootHandlers.filter (fun h => h.kind.isFile)).map Handler.hid).count i = 0 :=
    Nat.eq_zero_of_add_eq_zero_left hcount
  obtain ⟨hh, hhm, hhid, hhk⟩ := h.open_in_root i hm h1
  have : i ∈ (st.rootHandlers.filter (fun h => h.kind.isFile)).map Handler.hid := by
    refine List.mem_map.mpr ⟨hh, List.mem_filter.mpr ⟨hhm, ?_⟩, hhid⟩
    simp [hhk, HandlerKind.isFile]
  rw [List.count_eq_zero] at h2
  exact h2 this

theorem inv_removeClose (st : LoggingState) (h : Inv st) :
    Inv (removeAndCloseFileHandlers st) := by
  obtain ⟨c1, c2, c3, c4, c5, c6, c7⟩ := h
  constructor
  · exact le_trans (List.length_filter_le _ _) c1
  · rw [fileCount, removeClose_files_nil]
    simp
  · intro hh hm
    exact c3 hh (List.mem_of_mem_filter hm)
  · exact c4
  · intro i hm
    rcases List.mem_append.mp hm with hm | hm
    · exact c5 i hm
    · obtain ⟨hh, hhm, hhid⟩ := List.mem_map.mp hm
      exact hhid ▸ c3 hh (List.mem_of_mem_filter hhm)
  · exact c6
  · intro i hm hc
    exact absurd hc (removeClose_allClosed st ⟨c1, c2, c3, c4, c5, c6, c7⟩ i hm)

theorem attach_registry_len (st : LoggingState) :
    (attachFileHandler st).registry.length = st.registry.length + 1 := by
  simp [attachFileHandler]

theorem inv_attach (st : LoggingState) (h : Inv st)
    (hfiles : st.rootHandlers.filter (fun h => h.kind.isFile) = [])
    (hclosed : ∀ i ∈ st.registry, st.closes.count i ≠ 0) :
    Inv (attachFileHandler st) := by
  obtain ⟨c1, c2, c3, c4, c5, c6, c7⟩ := h
  constructor
  · simp only [consoleCount, attachFileHandler, List.filter_append]
    simp [HandlerKind.isFile]
    exact c1
  · simp only [fileCount, attachFileHandler, List.filter_append, hfiles]
    simp [HandlerKind.isFile]
  · intro hh hm
    rcases List.mem_append.mp hm with hm | hm
    · exact Nat.lt_succ_of_lt (c3 hh hm)
    · simp at hm
      rw [hm]
      exact Nat.lt_succ_self _
  · intro i hm
    rcases List.mem_append.mp hm with hm | hm
    · exact Nat.lt_succ_of_lt (c4 i hm)
    · simp at hm
      rw [hm]
      exact Nat.lt_succ_self _
  · exact fun i hm => Nat.lt_succ_of_lt (c5 i hm)
  · rw [show (attachFileHandler st).registry = st.registry ++ [st.nextId] from rfl,
        List.nodup_append]
    refine ⟨c6, List.nodup_singleton _, ?_⟩
    intro i hi hj
    simp at hj
    exact absurd (hj ▸ c4 i hi) (lt_irrefl _)
  · intro i hm hc
    rcases List.mem_append.mp hm with hm | hm
    · exact absurd hc (hclosed i hm)
    · simp at hm
      refine ⟨⟨st.nextId, .file⟩, List.mem_append_right _ (by simp), by simp [hm], rfl⟩

theorem inv_forceBasic (st : LoggingState) (h : Inv st) : Inv (forceBasicConfig st) := by
  obtain ⟨c1, c2, c3, c4, c5, c6, c7⟩ := h
  constructor
  · simp [consoleCount, forceBasicConfig, HandlerKind.isFile]
  · simp [fileCount, forceBasicConfig, HandlerKind.isFile]
  · intro hh hm
    simp [forceBasicConfig] at hm
    rw [hm]
    exact Nat.lt_succ_self _
  · exact fun i hm => Nat.lt_succ_of_lt (c4 i hm)
  · intro i hm
    rcases List.mem_append.mp hm with hm | hm
    · exact Nat.lt_succ_of_lt (c5 i hm)
    · obtain ⟨hh, hhm, hhid⟩ := List.mem_map.mp hm
      exact Nat.lt_succ_of_lt (hhid ▸ c3 hh hhm)
  · exact c6
  · intro i hm hc
    exfalso
    have hcount : st.closes.count i + (st.rootHandlers.map Handler.hid).count i = 0 := by
      rw [← List.count_append]
      exact hc
    have h1 : st.closes.count i = 0 := Nat.eq_zero_of_add_eq_zero_right hcount
    have h2 : (st.rootHandlers.map Handler.hid).count i = 0 :=
      Nat.eq_zero_of_add_eq_zero_left hcount
    obtain ⟨hh, hhm, hhid, _⟩ := c7 i hm h1
    rw [List.count_eq_zero] at h2
    exact h2 (List.mem_map.mpr ⟨hh, hhm, hhid⟩)

theorem inv_initialize (env : Env) (st : LoggingState) (h : Inv st) :
    Inv (initialize_config env st).2 ∧
      (initialize_config env st).2.registry.length ≤ st.registry.length + 1 := by
  rcases hl : env.loadResult with e | qc
  · simp only [initialize_config, hl]
    exact ⟨h, Nat.le_succ_of_le (le_refl _)⟩
  · rcases hr : resolveLevelName (sectionLogLevel (toolSection (ensureToolSection qc)))
      with e | attr
    · simp only [initialize_config, hl, hr]
      exact ⟨h, Nat.le_succ_of_le (le_refl _)⟩
    · cases ht : env.testMode
      · rcases hc : checkLevel attr with e | n
        · simp only [initialize_config, hl, hr, ht, hc, Bool.false_eq_true, if_false]
          exact ⟨h, Nat.le_succ_of_le (le_refl _)⟩
        · have h1 := inv_setLevel st n h
          have h2 := inv_addConsole _ h1
          have h3 := inv_removeClose _ h2
          have hreg3 : (removeAndCloseFileHandlers
              (addConsoleIfMissing { st with rootLevel := n })).registry = st.registry := by
            rw [removeClose_registry, addConsole_registry]
          cases hm : env.mkdirOk
          · simp only [initialize_config, hl, hr, ht, hc, hm, Bool.false_eq_true, if_false]
            exact ⟨h3, by rw [hreg3]; exact Nat.le_succ_of_le (le_refl _)⟩
          · cases hf : env.fileOpenOk
            · simp only [initialize_config, hl, hr, ht, hc, hm, hf,
                Bool.false_eq_true, if_false, if_true]
              exact ⟨h3, by rw [hreg3]; exact Nat.le_succ_of_le (le_refl _)⟩
            · simp only [initialize_config, hl, hr, ht, hc, hm, hf,
                Bool.false_eq_true, if_false, if_true]
              refine ⟨inv_attach _ h3 (removeClose_files_nil _)
                (removeClose_allClosed _ h2), ?_⟩
              rw [attach_registry_len, hreg3]
      · have h1 := inv_forceBasic st h
        rcases hc : checkLevel attr with e | n
        · simp only [initialize_config, hl, hr, ht, hc, if_true]
          exact ⟨h1, Nat.le_succ_of_le (le_refl _)⟩
        · have h2 := inv_setLevel _ n h1
          cases hm : env.mkdirOk
          · simp only [initialize_config, hl, hr, ht, hc, hm, Bool.false_eq_true,
              if_false, if_true]
            exact ⟨h2, Nat.le_succ_of_le (le_refl _)⟩
          · simp only [initialize_config, hl, hr, ht, hc, hm, if_true]
            exact ⟨h2, Nat.le_succ_of_le (le_refl _)⟩

theorem runInits_cons (e : Env) (rest : List Env) (lst : LoggingState) :
    runInits (e :: rest) lst = runInits rest (initialize_config e lst).2 := rfl

theorem inv_runInits (envs : List Env) (lst : LoggingState) (h : Inv lst) :
    Inv (runInits envs lst) ∧
      (runInits envs lst).registry.length ≤ lst.registry.length + envs.length := by
  induction envs generalizing lst with
  | nil => exact ⟨h, le_refl _⟩
  | cons e rest ih =>
      have hstep := inv_initialize e lst h
      have hr := ih _ hstep.1
      rw [runInits_cons]
      refine ⟨hr.1, le_trans hr.2 ?_⟩
      calc (initialize_config e lst).2.registry.length + rest.length
          ≤ (lst.registry.length + 1) + rest.length :=
            Nat.add_le_add_right hstep.2 _
        _ = lst.registry.length + (e :: rest).length := by
            simp [List.length_cons]
            omega

theorem length_le_one_of_all_eq {l : List Nat} (hn : l.Nodup)
    (ha : ∀ a ∈ l, ∀ b ∈ l, a = b) : l.length ≤ 1 := by
  match l with
  | [] => simp
  | [x] => simp
  | x :: y :: t =>
      exfalso
      have hxy : x = y := ha x (by simp) y (by simp)
      rw [hxy] at hn
      simp [List.nodup_cons] at hn

theorem mem_eq_of_length_le_one {α : Type} {l : List α} (h : l.length ≤ 1)
    {a b : α} (ha : a ∈ l) (hb : b ∈ l) : a = b := by
  match l with
  | [] => cases ha
  | [x] =>
      simp at ha hb
      rw [ha, hb]
  | x :: y :: t => simp at h

theorem openRegistry_le_one (st : LoggingState) (h : Inv st) :
    (openRegistry st).length ≤ 1 := by
  apply length_le_one_of_all_eq (h.registry_nodup.filter _)
  intro a haf b hbf
  simp only [openRegistry, List.mem_filter] at haf hbf
  have ha0 : st.closes.count a = 0 := by simpa using haf.2
  have hb0 : st.closes.count b = 0 := by simpa using hbf.2
  obtain ⟨h1, h1m, h1id, h1k⟩ := h.open_in_root a haf.1 ha0
  obtain ⟨h2, h2m, h2id, h2k⟩ := h.open_in_root b hbf.1 hb0
  have m1 : h1 ∈ st.rootHandlers.filter (fun hh => hh.kind.isFile) :=
    List.mem_filter.mpr ⟨h1m, by simp [h1k, HandlerKind.isFile]⟩
  have m2 : h2 ∈ st.rootHandlers.filter (fun hh => hh.kind.isFile) :=
    List.mem_filter.mpr ⟨h2m, by simp [h2k, HandlerKind.isFile]⟩
  have he : h1 = h2 := mem_eq_of_length_le_one h.file_le m1 m2
  rw [← h1id, ← h2id, he]

/-! ## Lifecycle lemmas -/

theorem get_config_cached (env : Env) (st : GlobalState) (c : QuackConfig)
    (h : st.config = some c) : get_config env st = (.ok c, st) := by
  simp only [get_config, h]

theorem toolSection_store (cfg : QuackConfig) (sec : ToolSection) :
    toolSection { cfg with custom := customStore cfg.custom sec } = sec := by
  cases cfg.custom <;> simp [toolSection, customStore, alookup_aset]

theorem toolSection_ensure_fresh (qc : QuackConfig)
    (hfresh : customHas qc.custom = false) :
    toolSection (ensureToolSection qc) = .dict QuackMetadataConfig_model_dump := by
  cases hc : qc.custom with
  | mapping es =>
      simp only [customHas, hc] at hfresh
      simp [ensureToolSection, toolSection, hc, hfresh, alookup_aset]
  | attrObj es =>
      simp only [customHas, hc] at hfresh
      simp [ensureToolSection, toolSection, hc, hfresh, alookup_aset]

theorem ensure_level_fresh (qc : QuackConfig) (hfresh : customHas qc.custom = false) :
    resolveLevelName (sectionLogLevel (toolSection (ensureToolSection qc)))
      = .ok (.levelInt 20) := by
  rw [toolSection_ensure_fresh qc hfresh]
  rfl

theorem initialize_fresh_ok (env : Env) (lst : LoggingState) (qc : QuackConfig)
    (hl : env.loadResult = .ok qc) (hfresh : customHas qc.custom = false)
    (hm : env.mkdirOk = true) :
    (initialize_config env lst).1 = .ok (ensureToolSection qc) := by
  have hlev := ensure_level_fresh qc hfresh
  cases ht : env.testMode
  · simp only [initialize_config, hl, hlev, ht, hm, checkLevel, Bool.false_eq_true,
      if_false, if_true]
  · simp only [initialize_config, hl, hlev, ht, hm, checkLevel, if_true]

theorem get_config_fresh (env : Env) (st : GlobalState) (qc : QuackConfig)
    (hst : st.config = none) (hl : env.loadResult = .ok qc)
    (hfresh : customHas qc.custom = false) (hm : env.mkdirOk = true) :
    get_config env st = (.ok (ensureToolSection qc),
      { config := some (ensureToolSection qc),
        logging := (initialize_config env st.logging).2 }) := by
  have hi := initialize_fresh_ok env st.logging qc hl hfresh hm
  simp only [get_config, hst]
  rcases he : initialize_config env st.logging with ⟨r, lst⟩
  rw [he] at hi
  simp only at hi
  rw [hi]

/-! ## Claim theorems -/

/-- C5: once the singleton reference is populated, a further `get_config`
call — under any environment, in particular without re-initialization —
returns the same cached configuration object and leaves the process state
(hence the root logger's handlers) unchanged: no second console handler is
attached. -/
theorem C5_get_config_idempotent (env1 env2 : Env) (st st1 : GlobalState)
    (c : QuackConfig) (h : get_config env1 st = (.ok c, st1)) :
    get_config env2 st1 = (.ok c, st1) := by
  have hc : st1.config = some c := by
    rcases hs : st.config with _ | c0
    · simp only [get_config, hs] at h
      rcases he : initialize_config env1 st.logging with ⟨r, lst⟩
      rw [he] at h
      cases r with
      | error e => simp at h
      | ok qc =>
          simp only [Prod.mk.injEq, Except.ok.injEq] at h
          rw [← h.2, h.1]
    · simp only [get_config, hs, Prod.mk.injEq, Except.ok.injEq] at h
      rw [← h.2, hs, h.1]
  exact get_config_cached env2 st1 c hc

/-- C5 witness: from the pristine state, a first `get_config` yields
`(cfgA, stA)`; the theorem then gives that a second call returns the
identical cached object and state. -/
theorem C5_witness : get_config env0 stA = (Except.ok cfgA, stA) :=
  C5_get_config_idempotent env0 env0 st0 stA cfgA (by decide)

/-- C3: when the cached tool section is a dict `s`, `update_tool_config p`
stores `dictUpdate s p` as the new section, and that dict is the key-wise
union in which keys of `p` win, keys of `s` absent from `p` survive, and
keys of `p` absent from `s` are added. -/
theorem C3_update_merges (env : Env) (st : GlobalState) (cfg : QuackConfig)
    (s p : Dict) (hcfg : st.config = some cfg) (hsec : toolSection cfg = .dict s)
    (hp : (p.map Prod.fst).Nodup) :
    ∃ cfg1 : QuackConfig, update_tool_config env p st
        = (.ok (), { st with config := some cfg1 }) ∧
      toolSection cfg1 = .dict (dictUpdate s p) ∧
      ∀ k, alookup (dictUpdate s p) k =
        (match alookup p k with | some v => some v | none => alookup s k) := by
  have hg := get_config_cached env st cfg hcfg
  have hgt : get_tool_config env st = (.ok (.dict s), st) := by
    simp only [get_tool_config, hg, hsec]
  refine ⟨{ cfg with custom := customStore cfg.custom (.dict (dictUpdate s p)) }, ?_, ?_, ?_⟩
  · simp only [update_tool_config, hg, hgt]
  · exact toolSection_store cfg _
  · exact fun k => alookup_dictUpdate s p hp k

/-- C3 witness: the spec example — section `{a: 1, b: 2}` updated with
`{b: 3, c: 4}` yields `{a: 1, b: 3, c: 4}`. -/
theorem C3_witness :
    dictUpdate [("a", .vInt 1), ("b", .vInt 2)] [("b", .vInt 3), ("c", .vInt 4)]
      = [("a", .vInt 1), ("b", .vInt 3), ("c", .vInt 4)] ∧
    ∃ cfg1 : QuackConfig,
      update_tool_config env0 [("b", .vInt 3), ("c", .vInt 4)] stAB
        = (.ok (), { stAB with config := some cfg1 }) ∧
      toolSection cfg1 = .dict (dictUpdate [("a", .vInt 1), ("b", .vInt 2)]
        [("b", .vInt 3), ("c", .vInt 4)]) ∧
      ∀ k, alookup (dictUpdate [("a", .vInt 1), ("b", .vInt 2)]
          [("b", .vInt 3), ("c", .vInt 4)]) k =
        (match alookup [("b", .vInt 3), ("c", .vInt 4)] k with
          | some v => some v
          | none => alookup [("a", .vInt 1), ("b", .vInt 2)] k) :=
  ⟨by decide,
   C3_update_merges env0 stAB cfgAB [("a", .vInt 1), ("b", .vInt 2)]
     [("b", .vInt 3), ("c", .vInt 4)] rfl (by decide) (by decide)⟩

/-- C4: when the cached tool section is not a dict, `update_tool_config p`
stores `p` itself as the new section (replacement, no merge); the write-back
goes through `customStore`, i.e. key access for a mapping-like `custom` and
attribute access otherwise. -/
theorem C4_update_replaces_nondict (env : Env) (st : GlobalState)
    (cfg : QuackConfig) (attrs p : Dict) (hcfg : st.config = some cfg)
    (hsec : toolSection cfg = .nonDict attrs) :
    ∃ cfg1 : QuackConfig, update_tool_config env p st
        = (.ok (), { st with config := some cfg1 }) ∧
      toolSection cfg1 = .dict p := by
  have hg := get_config_cached env st cfg hcfg
  have hgt : get_tool_config env st = (.ok (.nonDict attrs), st) := by
    simp only [get_tool_config, hg, hsec]
  refine ⟨{ cfg with custom := customStore cfg.custom (.dict p) }, ?_, ?_⟩
  · simp only [update_tool_config, hg, hgt]
  · exact toolSection_store cfg _

/-- C4 witness: an attribute-shaped `custom` holding a non-dict section is
replaced wholesale by the new mapping. -/
theorem C4_witness :
    ∃ cfg1 : QuackConfig,
      update_tool_config env0 [("x", .vInt 7)] stNonDict
        = (.ok (), { stNonDict with config := some cfg1 }) ∧
      toolSection cfg1 = .dict [("x", .vInt 7)] :=
  C4_update_replaces_nondict env0 stNonDict cfgNonDict [] [("x", .vInt 7)] rfl rfl

/-- C9: an error raised by the external loader `load_config` propagates
uncaught out of `initialize_config`, and hence out of the first
`get_config` call, leaving the singleton unset. -/
theorem C9_loader_error_propagates (env : Env) (lst : LoggingState)
    (st : GlobalState) (e : PyError) (hl : env.loadResult = .error e)
    (hst : st.config = none) :
    initialize_config env lst = (.error e, lst) ∧
      get_config env st = (.error e, { config := none, logging := st.logging }) := by
  have h1 : initialize_config env lst = (.error e, lst) := by
    simp only [initialize_config, hl]
  have h2 : initialize_config env st.logging = (.error e, st.logging) := by
    simp only [initialize_config, hl]
  refine ⟨h1, ?_⟩
  simp only [get_config, hst, h2]

/-- C9 witness: a concrete loader failure surfaces unchanged from both entry
points. -/
theorem C9_witness :
    initialize_config { env0 with loadResult := .error (.loaderError "corrupt") }
        emptyLoggingState
      = (.error (.loaderError "corrupt"), emptyLoggingState) ∧
    get_config { env0 with loadResult := .error (.loaderError "corrupt") } st0
      = (.error (.loaderError "corrupt"),
         { config := none, logging := emptyLoggingState }) :=
  C9_loader_error_propagates { env0 with loadResult := .error (.loaderError "corrupt") }
    emptyLoggingState st0 (.loaderError "corrupt") rfl rfl

/-- C8: with a fresh host configuration whose `custom` region lacks the
tool's entry — mapping-shaped or attribute-shaped — initialization creates
the section from the serialized model defaults, so the first
`get_tool_config` returns exactly those defaults, whose `log_level` is
`"INFO"`. -/
theorem C8_fresh_defaults (env : Env) (st : GlobalState) (qc : QuackConfig)
    (hst : st.config = none) (hl : env.loadResult = .ok qc)
    (hfresh : customHas qc.custom = false) (hm : env.mkdirOk = true) :
    (get_tool_config env st).1 = .ok (.dict QuackMetadataConfig_model_dump) ∧
      alookup QuackMetadataConfig_model_dump "log_level" = some (.vStr "INFO") := by
  have hg := get_config_fresh env st qc hst hl hfresh hm
  constructor
  · simp only [get_tool_config, hg, toolSection_ensure_fresh qc hfresh]
  · rfl

/-- C8 witness: both `custom` shapes, evaluated on concrete fresh
configurations. -/
theorem C8_witness :
    ((get_tool_config env0 st0).1 = .ok (.dict QuackMetadataConfig_model_dump) ∧
      alookup QuackMetadataConfig_model_dump "log_level" = some (.vStr "INFO")) ∧
    ((get_tool_config envAttr st0).1 = .ok (.dict QuackMetadataConfig_model_dump) ∧
      alookup QuackMetadataConfig_model_dump "log_level" = some (.vStr "INFO")) :=
  ⟨C8_fresh_defaults env0 st0 freshCfg rfl rfl (by decide) rfl,
   C8_fresh_defaults envAttr st0 freshCfgAttr rfl rfl (by decide) rfl⟩

/-- C10: calling `update_tool_config` with the singleton still unset first
performs the full lazy initialization (loader, default section creation),
then merges into the newly created defaults; it does not fail for lack of a
prior `get_config`, and afterwards `get_config` returns the configuration
holding the merged section. -/
theorem C10_update_initializes_first (env : Env) (st : GlobalState)
    (qc : QuackConfig) (p : Dict) (hst : st.config = none)
    (hl : env.loadResult = .ok qc) (hfresh : customHas qc.custom = false)
    (hm : env.mkdirOk = true) :
    ∃ cfg1 : QuackConfig, (update_tool_config env p st).1 = .ok () ∧
      (update_tool_config env p st).2.config = some cfg1 ∧
      toolSection cfg1 = .dict (dictUpdate QuackMetadataConfig_model_dump p) ∧
      get_config env (update_tool_config env p st).2
        = (.ok cfg1, (update_tool_config env p st).2) := by
  have hg := get_config_fresh env st qc hst hl hfresh hm
  set st1 : GlobalState :=
    { config := some (ensureToolSection qc),
      logging := (initialize_config env st.logging).2 } with hst1
  have hg1 := get_config_cached env st1 (ensureToolSection qc) rfl
  have hgt : get_tool_config env st1
      = (.ok (.dict QuackMetadataConfig_model_dump), st1) := by
    simp only [get_tool_config, hg1, toolSection_ensure_fresh qc hfresh]
  have hu : update_tool_config env p st = (.ok (), { st1 with
      config := some { ensureToolSection qc with
        custom := customStore (ensureToolSection qc).custom
          (.dict (dictUpdate QuackMetadataConfig_model_dump p)) } }) := by
    simp only [update_tool_config, hg, hgt]
  refine ⟨{ ensureToolSection qc with
      custom := customStore (ensureToolSection qc).custom
        (.dict (dictUpdate QuackMetadataConfig_model_dump p)) }, ?_, ?_, ?_, ?_⟩
  · rw [hu]
  · rw [hu]
  · exact toolSection_store (ensureToolSection qc) _
  · rw [hu]
    exact get_config_cached env _ _ rfl

/-- C10 witness: updating from the pristine state initializes first and then
merges into the defaults. -/
theorem C10_witness :
    ∃ cfg1 : QuackConfig,
      (update_tool_config env0 [("max_retries", .vInt 5)] st0).1 = .ok () ∧
      (update_tool_config env0 [("max_retries", .vInt 5)] st0).2.config = some cfg1 ∧
      toolSection cfg1 = .dict (dictUpdate QuackMetadataConfig_model_dump
        [("max_retries", .vInt 5)]) ∧
      get_config env0 (update_tool_config env0 [("max_retries", .vInt 5)] st0).2
        = (.ok cfg1, (update_tool_config env0 [("max_retries", .vInt 5)] st0).2) :=
  C10_update_initializes_first env0 st0 freshCfg [("max_retries", .vInt 5)]
    rfl rfl (by decide) rfl

theorem consoleCount_addConsole_pos (st : LoggingState) :
    1 ≤ consoleCount (addConsoleIfMissing st) := by
  unfold addConsoleIfMissing
  split
  · rename_i hyes
    obtain ⟨x, hx, hpx⟩ := List.any_eq_true.mp hyes
    have : x ∈ st.rootHandlers.filter (fun h => !h.kind.isFile) :=
      List.mem_filter.mpr ⟨hx, hpx⟩
    exact List.length_pos.mpr (List.ne_nil_of_mem this)
  · show 1 ≤ (List.filter (fun h => !h.kind.isFile)
      (st.rootHandlers ++ [⟨st.nextId, .console⟩])).length
    rw [List.filter_append]
    have : List.filter (fun h => !h.kind.isFile)
        [(⟨st.nextId, HandlerKind.console⟩ : Handler)]
        = [⟨st.nextId, HandlerKind.console⟩] := rfl
    rw [this, List.length_append]
    simp

theorem consoleCount_removeClose (st : LoggingState) :
    consoleCount (removeAndCloseFileHandlers st) = consoleCount st := by
  show (List.filter (fun h => !h.kind.isFile)
    (st.rootHandlers.filter (fun h => !h.kind.isFile))).length = consoleCount st
  rw [List.filter_eq_self.mpr (fun a ha => (List.mem_filter.mp ha).2)]
  rfl

/-- C1 counterexample: with a cooperating loader but a logs directory that
cannot be created, `initialize_config` propagates the `OSError` from `mkdir`
instead of returning the configuration — the directory-creation failure is
not swallowed (only the log-file open is inside the `try`). -/
theorem C1_counterexample :
    (initialize_config envNoMkdir emptyLoggingState).1
      = .error (.oserror "mkdir") := by decide

/-- C1 (amended): if opening the log file raises a filesystem error,
`initialize_config` does not propagate it: it returns the configuration
object, no file handler is attached or registered, and logging continues
with the console handler only.  (Errors creating the logs directory, by
contrast, propagate — see the counterexample.) -/
theorem C1_file_open_error_swallowed (env : Env) (lst : LoggingState)
    (qc : QuackConfig) (attr : LogAttr) (n : Nat)
    (hl : env.loadResult = .ok qc)
    (hr : resolveLevelName (sectionLogLevel (toolSection (ensureToolSection qc)))
      = .ok attr)
    (hn : checkLevel attr = .ok n) (ht : env.testMode = false)
    (hm : env.mkdirOk = true) (hf : env.fileOpenOk = false) :
    (initialize_config env lst).1 = .ok (ensureToolSection qc) ∧
      fileCount (initialize_config env lst).2 = 0 ∧
      1 ≤ consoleCount (initialize_config env lst).2 ∧
      (initialize_config env lst).2.registry = lst.registry := by
  have he : initialize_config env lst = (.ok (ensureToolSection qc),
      removeAndCloseFileHandlers (addConsoleIfMissing { lst with rootLevel := n })) := by
    simp only [initialize_config, hl, hr, hn, ht, hm, hf, Bool.false_eq_true,
      if_false, if_true]
  rw [he]
  refine ⟨rfl, ?_, ?_, ?_⟩
  · rw [fileCount, removeClose_files_nil]
    rfl
  · rw [consoleCount_removeClose]
    exact consoleCount_addConsole_pos _
  · rw [removeClose_registry, addConsole_registry]

/-- C1 witness: concrete run in which only the log-file open fails. -/
theorem C1_witness :
    (initialize_config envNoFile emptyLoggingState).1
        = .ok (ensureToolSection freshCfg) ∧
      fileCount (initialize_config envNoFile emptyLoggingState).2 = 0 ∧
      1 ≤ consoleCount (initialize_config envNoFile emptyLoggingState).2 ∧
      (initialize_config envNoFile emptyLoggingState).2.registry
        = emptyLoggingState.registry :=
  C1_file_open_error_swallowed envNoFile emptyLoggingState freshCfg
    (.levelInt 20) 20 rfl rfl rfl rfl rfl rfl

/-- C2 (code bug): a configured `log_level` of `"info"` is not a recognized
name in the standard level table, so the claim says the level falls back to
`logging.INFO` and no error is raised; but `getattr(logging, "info",
logging.INFO)` finds the module-level function `logging.info`, and
`Logger.setLevel` then raises `TypeError`, so `initialize_config` raises
instead of falling back. -/
theorem C2_bug_lowercase_level_raises :
    (initialize_config envInfoLower emptyLoggingState).1
      = .error (.typeError "Level not an integer or a valid string") ∧
    loggingModuleAttr "info" = some (.nonInt "function logging.info") := by
  exact ⟨rfl, rfl⟩

/-- C6: after any number of successive `initialize_config` calls in normal
(non-test) mode starting from a pristine root logger, the root logger holds
at most one console handler and at most one file handler, the handler
registry holds at most one entry per call, and at most one registry entry is
still open (every file handler from a previous call was removed and closed
when superseded). -/
theorem C6_no_handler_leak (envs : List Env)
    (_hnormal : ∀ e ∈ envs, e.testMode = false) :
    consoleCount (runInits envs emptyLoggingState) ≤ 1 ∧
      fileCount (runInits envs emptyLoggingState) ≤ 1 ∧
      (runInits envs emptyLoggingState).registry.length ≤ envs.length ∧
      (openRegistry (runInits envs emptyLoggingState)).length ≤ 1 := by
  have h := inv_runInits envs emptyLoggingState inv_empty
  refine ⟨h.1.console_le, h.1.file_le, ?_, openRegistry_le_one _ h.1⟩
  have h2 := h.2
  simpa [emptyLoggingState] using h2

/-- C6 witness: three successive normal-mode re-initializations. -/
theorem C6_witness :
    consoleCount (runInits [env0, env0, env0] emptyLoggingState) ≤ 1 ∧
      fileCount (runInits [env0, env0, env0] emptyLoggingState) ≤ 1 ∧
      (runInits [env0, env0, env0] emptyLoggingState).registry.length ≤ 3 ∧
      (openRegistry (runInits [env0, env0, env0] emptyLoggingState)).length ≤ 1 :=
  C6_no_handler_leak [env0, env0, env0] (by decide)

/-- C7 counterexample: after two successful re-initializations and the
process-exit cleanup, the first file handler (id 1) was appended to the
registry once, closed once during the second initialization (`closes = [1]`
before exit) and closed again by the exit hook (`closes = [1, 1, 2]` after),
i.e. its `close()` ran both during a re-initialization and at process exit —
twice, not exactly once. -/
theorem C7_counterexample :
    (runInits [env0, env0] emptyLoggingState).registry = [1, 2] ∧
      (runInits [env0, env0] emptyLoggingState).closes = [1] ∧
      (close_file_handlers (runInits [env0, env0] emptyLoggingState)).closes
        = [1, 1, 2] ∧
      (close_file_handlers (runInits [env0, env0] emptyLoggingState)).closes.count 1
        = 2 := by
  exact ⟨rfl, rfl, rfl, rfl⟩

/-- C7 (amended): no handle is appended to the registry twice, and every
registered handle is closed at least once by the time the exit hook has run;
a handle still open when the process exits is closed exactly once (by the
hook), while a handle superseded by a re-initialization was closed then and
receives one redundant, no-op `close()` from the hook. -/
theorem C7_registry_cleanup (envs : List Env) :
    (runInits envs emptyLoggingState).registry.Nodup ∧
      (∀ i ∈ (runInits envs emptyLoggingState).registry,
        1 ≤ (close_file_handlers (runInits envs emptyLoggingState)).closes.count i) ∧
      (∀ i ∈ (runInits envs emptyLoggingState).registry,
        (runInits envs emptyLoggingState).closes.count i = 0 →
        (close_file_handlers (runInits envs emptyLoggingState)).closes.count i = 1) := by
  have h := (inv_runInits envs emptyLoggingState inv_empty).1
  refine ⟨h.registry_nodup, ?_, ?_⟩
  · intro i hm
    show 1 ≤ ((runInits envs emptyLoggingState).closes
      ++ (runInits envs emptyLoggingState).registry).count i
    rw [List.count_append]
    have hpos : 0 < (runInits envs emptyLoggingState).registry.count i :=
      List.count_pos_iff.mpr hm
    omega
  · intro i hm h0
    show ((runInits envs emptyLoggingState).closes
      ++ (runInits envs emptyLoggingState).registry).count i = 1
    rw [List.count_append, h0, List.count_eq_one_of_mem h.registry_nodup hm]

/-- C7 witness: a single initialization leaves handle 1 registered and open;
the exit hook closes it exactly once. -/
theorem C7_witness :
    1 ≤ (close_file_handlers (runInits [env0] emptyLoggingState)).closes.count 1 ∧
      (close_file_handlers (runInits [env0] emptyLoggingState)).closes.count 1 = 1 :=
  ⟨(C7_registry_cleanup [env0]).2.1 1 (by decide),
   (C7_registry_cleanup [env0]).2.2 1 (by decide) (by decide)⟩

end QuackMeta
